import Mathlib

/-!
Verification development for the pobudka wake-up scheduler.

This file shallowly embeds the scheduler core of the repository:
`src/scheduler.py` (next-run computation, duration parsing, the attempt
state machine of `WakeupScheduler._attempt_wakeup`, state persistence
and loading) together with the data types it uses from `src/config.py`
and `src/providers/base.py`.

Timestamps are modelled as the civil fields of a Python `datetime`
pinned to UTC (the scheduler normalises every datetime to UTC through
`_ensure_utc` before using it).  `datetime + timedelta` arithmetic is
modelled through conversion to and from microseconds since the Unix
epoch, using the standard civil-calendar algorithms, which agrees with
Python's proleptic-Gregorian datetime arithmetic.
-/

namespace Pobudka

/-- Civil UTC timestamp: the fields of an aware Python `datetime` whose
`tzinfo` is `timezone.utc`. -/
structure DateTime where
  year : Nat
  month : Nat
  day : Nat
  hour : Nat
  minute : Nat
  second : Nat
  microsecond : Nat
deriving DecidableEq, Repr

/-- Gregorian leap-year test. -/
def isLeap (y : Nat) : Bool :=
  y % 4 = 0 && (y % 100 ≠ 0 || y % 400 = 0)

/-- Number of days in a month of the proleptic Gregorian calendar. -/
def daysInMonth (y m : Nat) : Nat :=
  if m = 2 then (if isLeap y then 29 else 28)
  else if m = 4 ∨ m = 6 ∨ m = 9 ∨ m = 11 then 30
  else 31

/-- Fields lie in the ranges a Python `datetime` admits. -/
def DateTime.Valid (d : DateTime) : Prop :=
  1 ≤ d.year ∧ d.year ≤ 9999 ∧ 1 ≤ d.month ∧ d.month ≤ 12 ∧
  1 ≤ d.day ∧ d.day ≤ daysInMonth d.year d.month ∧
  d.hour ≤ 23 ∧ d.minute ≤ 59 ∧ d.second ≤ 59 ∧ d.microsecond ≤ 999999

instance (d : DateTime) : Decidable d.Valid := by
  unfold DateTime.Valid; infer_instance

/-- Validity of an optional timestamp. -/
def OptValid : Option DateTime → Prop
  | Option.none => True
  | some d => d.Valid

instance (o : Option DateTime) : Decidable (OptValid o) := by
  cases o <;> (unfold OptValid; infer_instance)

/-- Days since 1970-01-01 of a civil date (Gregorian), the standard
`days_from_civil` algorithm with truncating division on operands that
the shifts keep non-negative. -/
def daysFromCivil (y m d : Int) : Int :=
  let y := if m ≤ 2 then y - 1 else y
  let era := (if 0 ≤ y then y else y - 399).tdiv 400
  let yoe := y - era * 400
  let mp := (m + 9).emod 12
  let doy := (153 * mp + 2).tdiv 5 + d - 1
  let doe := yoe * 365 + yoe.tdiv 4 - yoe.tdiv 100 + doy
  era * 146097 + doe - 719468

/-- Civil date (year, month, day) of a count of days since 1970-01-01,
the standard `civil_from_days` algorithm. -/
def civilFromDays (z : Int) : Int × Int × Int :=
  let z := z + 719468
  let era := (if 0 ≤ z then z else z - 146096).tdiv 146097
  let doe := z - era * 146097
  let yoe := (doe - doe.tdiv 1460 + doe.tdiv 36524 - doe.tdiv 146096).tdiv 365
  let y := yoe + era * 400
  let doy := doe - (365 * yoe + yoe.tdiv 4 - yoe.tdiv 100)
  let mp := (5 * doy + 2).tdiv 153
  let d := doy - (153 * mp + 2).tdiv 5 + 1
  let m := mp + (if mp < 10 then 3 else -9)
  (if m ≤ 2 then y + 1 else y, m, d)

def usPerSecond : Int := 1000000

def usPerDay : Int := 86400 * usPerSecond

/-- Microseconds since the Unix epoch of a UTC `DateTime`. -/
def toEpochUs (d : DateTime) : Int :=
  daysFromCivil d.year d.month d.day * usPerDay
    + ((d.hour * 3600 + d.minute * 60 + d.second) * 1000000 + d.microsecond : Nat)

/-- UTC `DateTime` of a count of microseconds since the Unix epoch.
For instants Python can represent (years 1..9999) this is the inverse
of `toEpochUs`; outside that range Python's datetime would overflow. -/
def fromEpochUs (t : Int) : DateTime :=
  let days := t.fdiv usPerDay
  let rem := (t.fmod usPerDay).toNat
  let c := civilFromDays days
  { year := c.1.toNat
    month := c.2.1.toNat
    day := c.2.2.toNat
    hour := rem / 3600000000
    minute := rem / 60000000 % 60
    second := rem / 1000000 % 60
    microsecond := rem % 1000000 }

/-- Python `d + timedelta(seconds=s)`. -/
def addSeconds (d : DateTime) (s : Int) : DateTime :=
  fromEpochUs (toEpochUs d + s * usPerSecond)

/-- Python aware-datetime comparison `a <= b` (instant order). -/
def dtLe (a b : DateTime) : Bool :=
  toEpochUs a ≤ toEpochUs b

/-- Python aware-datetime comparison `a < b` (instant order). -/
def dtLt (a b : DateTime) : Bool :=
  toEpochUs a < toEpochUs b

/-- Reset mode enum from `src/config.py`. -/
inductive ResetMode where
  | rolling
  | clock_aligned_hour
deriving DecidableEq, Repr

/-- Per-provider configuration from `src/config.py` (`ProviderConfig`). -/
structure ProviderConfig where
  name : String
  model : String
  wakeup_message : String
  reset_mode : ResetMode
  window_seconds : Int
  wake_delay_seconds : Int
  weekly_window_seconds : Int := 7 * 24 * 60 * 60
  weekly_wake_delay_seconds : Int := 10
deriving DecidableEq, Repr

/-- Scheduler configuration from `src/config.py` (`SchedulerConfig`). -/
structure SchedulerConfig where
  state_path : String
  auth_recheck_seconds : Int
  retry_base_seconds : Int
  retry_max_seconds : Int
deriving DecidableEq, Repr

/-- The function `compute_next_run` of `src/scheduler.py`.  The input is
already UTC, so `_ensure_utc` is the identity.  The clock-aligned branch
is Python's `success_at.replace(minute=0, second=0, microsecond=0)`. -/
def compute_next_run (cfg : ProviderConfig) (success_at : DateTime) : DateTime :=
  match cfg.reset_mode with
  | .rolling =>
      addSeconds success_at (cfg.window_seconds + cfg.wake_delay_seconds)
  | .clock_aligned_hour =>
      let anchor := { success_at with minute := 0, second := 0, microsecond := 0 }
      addSeconds anchor (cfg.window_seconds + cfg.wake_delay_seconds)

/-- The function `compute_next_weekly_run` of `src/scheduler.py`. -/
def compute_next_weekly_run (cfg : ProviderConfig) (success_at : DateTime) : DateTime :=
  addSeconds success_at (cfg.weekly_window_seconds + cfg.weekly_wake_delay_seconds)

/-! ## Duration parser

Model of `_DURATION_PART_RE` and `parse_duration_seconds`
(`src/scheduler.py` lines 20-82).  The pattern is
`(?P<value>\d+)\s*(?P<unit>day|days|hour|hours|minute|minutes|second|seconds)`
with `re.IGNORECASE`; `finditer` scans for leftmost non-overlapping
matches, and the backtracking engine tries alternatives left to right,
so the singular alternative always wins and each match consumes the
digits, the whitespace, and the singular unit word.  Character classes
are modelled over the ASCII characters the pattern words involve (`\d`
as ASCII digits, `\s` as ASCII whitespace, case folding as ASCII plus
the `sre` extra equivalences for dotted/dotless i and long s). -/

/-- ASCII decimal digit, the relevant case of the pattern's `\d`. -/
def isAsciiDigit (c : Char) : Bool :=
  48 ≤ c.toNat && c.toNat ≤ 57

/-- Whitespace accepted by the pattern's `\s` (ASCII cases). -/
def isPySpace (c : Char) : Bool :=
  c = ' ' || c = '\t' || c = '\n' || c = '\x0d' || c = '\x0b' || c = '\x0c'

/-- Case folding used by `re.IGNORECASE` when matching the unit words:
ASCII lowering plus the `sre` equivalence classes that can reach the
letters of the unit words (U+0130 and U+0131 fold with `i`, U+017F with
`s`). -/
def foldChar (c : Char) : Char :=
  if 65 ≤ c.toNat ∧ c.toNat ≤ 90 then Char.ofNat (c.toNat + 32)
  else if c = 'İ' ∨ c = 'ı' then 'i'
  else if c = 'ſ' then 's'
  else c

/-- Numeric value of an ASCII digit character. -/
def digitVal (c : Char) : Nat := c.toNat - 48

/-- Value of a run of decimal digit characters (Python `int`). -/
def digitsToNat (l : List Char) : Nat :=
  l.foldl (fun a c => a * 10 + digitVal c) 0

/-- Match a pattern word case-insensitively as a prefix of the text,
returning the remainder after the word. -/
def matchCI : List Char → List Char → Option (List Char)
  | [], rest => some rest
  | _ :: _, [] => none
  | p :: ps, c :: cs => if foldChar c = p then matchCI ps cs else none

/-- Match one unit word at the head of the text.  The regex alternation
`day|days|hour|hours|minute|minutes|second|seconds` always commits to
the singular form (leftmost alternative), and `parse_duration_seconds`
then classifies the captured unit by `startswith`, yielding the
multiplier returned here. -/
def unitHeadAux : List (List Char × Nat) → List Char → Option (Nat × List Char)
  | [], _ => none
  | (w, m) :: alts, l =>
      match matchCI w l with
      | some r => some (m, r)
      | none => unitHeadAux alts l

def unitHead (l : List Char) : Option (Nat × List Char) :=
  unitHeadAux
    [(['d', 'a', 'y'], 24 * 60 * 60),
     (['h', 'o', 'u', 'r'], 60 * 60),
     (['m', 'i', 'n', 'u', 't', 'e'], 60),
     (['s', 'e', 'c', 'o', 'n', 'd'], 1)] l

/-- Attempt one regex match anchored at the head of the text: one or
more digits, optional whitespace, then a unit word.  Greediness of
`\d+` and `\s*` is exact here because no unit word starts with a digit
or a space.  Returns the match's contribution `value * multiplier` and
the remainder of the text. -/
def tryMatch (l : List Char) : Option (Nat × List Char) :=
  if (l.takeWhile isAsciiDigit).isEmpty then none
  else
    match unitHead ((l.dropWhile isAsciiDigit).dropWhile isPySpace) with
    | some (mult, r) => some (digitsToNat (l.takeWhile isAsciiDigit) * mult, r)
    | none => none

theorem matchCI_length_le :
    ∀ (ps l r : List Char), matchCI ps l = some r → r.length ≤ l.length := by
  intro ps
  induction ps with
  | nil => intro l r h; simp [matchCI] at h; simp [h]
  | cons p ps ih =>
      intro l r h
      cases l with
      | nil => simp [matchCI] at h
      | cons c cs =>
          simp only [matchCI] at h
          split at h
          · exact le_trans (ih cs r h) (by simp)
          · exact absurd h (by simp)

theorem unitHeadAux_length_le :
    ∀ (alts : List (List Char × Nat)) (l : List Char) (m : Nat) (r : List Char),
      unitHeadAux alts l = some (m, r) → r.length ≤ l.length := by
  intro alts
  induction alts with
  | nil => intro l m r h; simp [unitHeadAux] at h
  | cons a alts ih =>
      intro l m r h
      obtain ⟨w, mult⟩ := a
      simp only [unitHeadAux] at h
      cases hm : matchCI w l with
      | some r' => rw [hm] at h; cases h; exact matchCI_length_le _ _ _ hm
      | none => rw [hm] at h; exact ih l m r h

theorem unitHead_length_le {l : List Char} {m : Nat} {r : List Char}
    (h : unitHead l = some (m, r)) : r.length ≤ l.length :=
  unitHeadAux_length_le _ _ _ _ h

theorem tryMatch_length_lt {l : List Char} {n : Nat} {r : List Char}
    (h : tryMatch l = some (n, r)) : r.length < l.length := by
  unfold tryMatch at h
  split at h
  · exact absurd h (by simp)
  · rename_i hne
    cases hu : unitHead ((l.dropWhile isAsciiDigit).dropWhile isPySpace) with
    | none => rw [hu] at h; cases h
    | some p =>
        obtain ⟨mult, r'⟩ := p
        rw [hu] at h
        cases h
        have h1 : r.length ≤ ((l.dropWhile isAsciiDigit).dropWhile isPySpace).length :=
          unitHead_length_le hu
        have h2 : ((l.dropWhile isAsciiDigit).dropWhile isPySpace).length ≤
            (l.dropWhile isAsciiDigit).length := (List.dropWhile_suffix _).length_le
        have h3 : (l.dropWhile isAsciiDigit).length < l.length := by
          cases l with
          | nil => simp [List.takeWhile] at hne
          | cons c cs =>
              by_cases hc : isAsciiDigit c
              · simp only [List.dropWhile, hc]
                exact Nat.lt_succ_of_le ((List.dropWhile_suffix _).length_le)
              · simp [List.takeWhile, hc] at hne
        omega

/-- Fuel-indexed scan; the fuel only serves to make the recursion
structural and is irrelevant whenever it is at least the text length
(`findMatchesAux_congr` below), since every step consumes at least one
character. -/
def findMatchesAux : Nat → List Char → List Nat
  | 0, _ => []
  | _ + 1, [] => []
  | fuel + 1, c :: cs =>
      match tryMatch (c :: cs) with
      | some (n, rest) => n :: findMatchesAux fuel rest
      | none => findMatchesAux fuel cs

/-- The sequence of per-match contributions produced by `finditer`:
try a match at each position, resuming after the end of each match,
advancing one character on failure. -/
def findMatches (l : List Char) : List Nat := findMatchesAux l.length l

theorem findMatchesAux_congr :
    ∀ (f1 : Nat) (f2 : Nat) (l : List Char), l.length ≤ f1 → l.length ≤ f2 →
      findMatchesAux f1 l = findMatchesAux f2 l := by
  intro f1
  induction f1 with
  | zero =>
      intro f2 l h1 _
      have : l = [] := List.eq_nil_of_length_eq_zero (by omega)
      subst this
      cases f2 <;> rfl
  | succ f ih =>
      intro f2 l h1 h2
      cases l with
      | nil => cases f2 <;> rfl
      | cons c cs =>
          cases f2 with
          | zero => simp at h2
          | succ g =>
              simp only [findMatchesAux]
              cases hm : tryMatch (c :: cs) with
              | some p =>
                  obtain ⟨n, rest⟩ := p
                  have hr := tryMatch_length_lt hm
                  simp only [List.length_cons] at h1 h2 hr
                  have he := ih g rest (by omega) (by omega)
                  simp [he]
              | none =>
                  simp only [List.length_cons] at h1 h2
                  exact ih g cs (by omega) (by omega)

/-- The function `parse_duration_seconds` of `src/scheduler.py`.  An
absent or empty text (`if not text`) yields no duration; otherwise the
contributions of all matches are summed, and a zero or matchless total
yields no duration. -/
def parse_duration_seconds (text : Option String) : Option Nat :=
  match text with
  | none => none
  | some s =>
      if s = "" then none
      else
        let ms := findMatches s.data
        if ms.isEmpty then none
        else if 0 < ms.sum then some ms.sum else none

/-! ## Schedule state and the attempt state machine

Model of `ProviderScheduleState` and the state-mutating portions of
`WakeupScheduler` (`src/scheduler.py`).  `consecutive_failures` is a
Python `int`, modelled as `Int` (the scheduler itself only ever writes
`0` or increments). -/

/-- The dataclass `ProviderScheduleState` of `src/scheduler.py`. -/
structure ProviderScheduleState where
  next_run_at : DateTime
  weekly_next_run_at : Option DateTime := none
  last_success_at : Option DateTime := none
  last_attempt_at : Option DateTime := none
  consecutive_failures : Int := 0
  paused_reason : Option String := none
  backoff_until : Option DateTime := none
  auth_request_sent : Bool := false
deriving DecidableEq, Repr

/-- The enum `WakeupFailureKind` of `src/providers/base.py`. -/
inductive WakeupFailureKind where
  | none
  | auth
  | rate_limit
  | transient
deriving DecidableEq, Repr

/-- The dataclass `WakeupResult` of `src/providers/base.py`. -/
structure WakeupResult where
  success : Bool
  message : String
  failure_kind : WakeupFailureKind := .none
  rate_limit_reset : Option String := none
deriving DecidableEq, Repr

/-- Externally observable side effects of one attempt: whether the
external re-authentication request callback (`request_auth`) was
invoked, and whether a notification was sent. -/
structure AttemptEffects where
  authRequested : Bool
  notified : Bool
deriving DecidableEq, Repr

/-- The method `WakeupScheduler._default_state` of `src/scheduler.py`. -/
def default_state (cfg : ProviderConfig) (now : DateTime) : ProviderScheduleState :=
  { next_run_at := addSeconds now cfg.wake_delay_seconds
    weekly_next_run_at := some (addSeconds now cfg.weekly_wake_delay_seconds) }

/-- The state-mutating core of `WakeupScheduler._attempt_wakeup`
(`src/scheduler.py` lines 362-520), for one provider, given the result
the provider's `send_wakeup` produced (an exception raised by the
provider is already converted by the method's `except` clause into a
failed result of transient kind, which is covered by passing that
converted result here).  Returns the updated state together with the
attempt's external effects.  Notification and persistence failures do
not alter the state and are not modelled beyond the `notified` flag. -/
def attempt_wakeup (sched : SchedulerConfig) (cfg : ProviderConfig)
    (st0 : ProviderScheduleState) (now : DateTime) (result : WakeupResult)
    (triggered_by_user : Bool) : ProviderScheduleState × AttemptEffects :=
  let st1 := { st0 with last_attempt_at := some now }
  let st := match st1.weekly_next_run_at with
    | Option.none =>
        { st1 with
            weekly_next_run_at := some (compute_next_weekly_run cfg (st1.last_success_at.getD now)) }
    | some _ => st1
  let due_primary := triggered_by_user || dtLe st.next_run_at now
  let due_weekly := match st.weekly_next_run_at with
    | some w => dtLe w now
    | Option.none => false
  if result.success then
    let had_recovery := st.paused_reason.isSome || decide ((0 : Int) < st.consecutive_failures)
    let st := { st with
      last_success_at := some now
      consecutive_failures := 0
      paused_reason := Option.none
      backoff_until := Option.none
      auth_request_sent := false }
    let st := if due_primary then { st with next_run_at := compute_next_run cfg now } else st
    let st := if due_weekly then
        { st with weekly_next_run_at := some (compute_next_weekly_run cfg now) } else st
    (st, { authRequested := false, notified := triggered_by_user || had_recovery })
  else
    let kind := if result.failure_kind ≠ WakeupFailureKind.none
      then result.failure_kind else WakeupFailureKind.transient
    if kind = WakeupFailureKind.auth then
      let st := { st with
        paused_reason := some "auth_required"
        consecutive_failures := st.consecutive_failures + 1
        backoff_until := Option.none
        next_run_at := addSeconds now (cfg.window_seconds + cfg.wake_delay_seconds)
        weekly_next_run_at := some (addSeconds now (cfg.weekly_window_seconds + cfg.weekly_wake_delay_seconds)) }
      if !st.auth_request_sent then
        ({ st with auth_request_sent := true }, { authRequested := true, notified := true })
      else
        (st, { authRequested := false, notified := false })
    else if kind = WakeupFailureKind.rate_limit then
      let reset_seconds : Int := match parse_duration_seconds result.rate_limit_reset with
        | some n => (n : Int)
        | Option.none => cfg.window_seconds
      let st := { st with
        consecutive_failures := 0
        paused_reason := Option.none
        backoff_until := Option.none
        auth_request_sent := false
        next_run_at := addSeconds now (reset_seconds + cfg.wake_delay_seconds)
        weekly_next_run_at := some (addSeconds now (reset_seconds + cfg.weekly_wake_delay_seconds)) }
      (st, { authRequested := false, notified := triggered_by_user })
    else
      let cf : Int := st.consecutive_failures + 1
      let backoff_seconds : Int :=
        min (sched.retry_base_seconds * 2 ^ (cf - 1).toNat) sched.retry_max_seconds
      let bu := addSeconds now backoff_seconds
      let st := { st with
        consecutive_failures := cf
        backoff_until := some bu
        next_run_at := bu
        weekly_next_run_at := some bu }
      (st, { authRequested := false,
             notified := triggered_by_user || cf = 1 || cf = 3 || cf = 5 })

/-- The state-mutating core of `WakeupScheduler.schedule_next_wakeup`
(`src/scheduler.py` lines 276-305): set the short-cycle due time to an
explicit timestamp, initialise the weekly timer if unset, and clear
backoff and pause.  `st` is the provider's current state, or `none`
when no state exists yet (then a default anchored at the scheduled
time is synthesised first). -/
def schedule_next_wakeup_update (cfg : ProviderConfig) (st : Option ProviderScheduleState)
    (scheduled : DateTime) (now : DateTime) : ProviderScheduleState :=
  let st := st.getD (default_state cfg scheduled)
  let st := { st with next_run_at := scheduled }
  let st := match st.weekly_next_run_at with
    | Option.none =>
        { st with
            weekly_next_run_at := some (compute_next_weekly_run cfg (st.last_success_at.getD now)) }
    | some _ => st
  { st with backoff_until := Option.none, paused_reason := Option.none }

/-- The state-mutating core of `WakeupScheduler.schedule_next_weekly_wakeup`
(`src/scheduler.py` lines 307-336).  The source's `if state.next_run_at
is None` branch is dead code (`next_run_at` is a mandatory `datetime`),
so it has no counterpart here. -/
def schedule_next_weekly_wakeup_update (cfg : ProviderConfig)
    (st : Option ProviderScheduleState) (scheduled : DateTime) : ProviderScheduleState :=
  let st := st.getD (default_state cfg scheduled)
  let st := { st with weekly_next_run_at := some scheduled }
  { st with backoff_until := Option.none, paused_reason := Option.none }

/-- The per-provider adjustment `WakeupScheduler.start` applies to a
state restored from disk (`src/scheduler.py` lines 156-181): initialise
the weekly timer if absent, and when the provider has a recorded
success and is neither paused nor backing off, push `next_run_at` up to
the configured next run.  The second weekly-initialisation `if` in the
source can never fire (the weekly timer was just initialised) and
therefore leaves no trace here beyond this remark. -/
def start_adjust (cfg : ProviderConfig) (now : DateTime)
    (st : ProviderScheduleState) : ProviderScheduleState :=
  let st := match st.weekly_next_run_at with
    | Option.none =>
        { st with
            weekly_next_run_at := some (compute_next_weekly_run cfg (st.last_success_at.getD now)) }
    | some _ => st
  match st.last_success_at, st.paused_reason, st.backoff_until with
  | some ls, Option.none, Option.none =>
      let configured_next := compute_next_run cfg ls
      if dtLt st.next_run_at configured_next then { st with next_run_at := configured_next }
      else st
  | _, _, _ => st

/-! ## Persistence

Model of `_serialize_time`, `_parse_time`, `WakeupScheduler._persist_state`
and `WakeupScheduler._load_state` (`src/scheduler.py` lines 97-104 and
five hundred sixty onward).  JSON documents are modelled as values (the
textual encode/decode done by `json.dumps`/`json.loads` is faithful on
values and is not re-modelled; a file whose text does not decode is one
of the `LoadInput` failure cases below).  Timestamps travel as ISO-8601
strings produced by `datetime.isoformat` on a UTC-aware datetime:
`YYYY-MM-DDTHH:MM:SS[.ffffff]+00:00`, the fractional part present
exactly when the microsecond field is nonzero. -/

/-- JSON values as `json.loads` produces them (numbers restricted to
the integers the scheduler ever writes). -/
inductive Json where
  | null
  | bool (b : Bool)
  | num (n : Int)
  | str (s : String)
  | obj (fields : List (String × Json))

/-- Python `dict.get(key)` over a JSON object: the stored value, or
`None` when the key is absent. -/
def pyGet (fields : List (String × Json)) (key : String) : Json :=
  (fields.lookup key).getD .null

/-- Python `dict.get(key, default)` over a JSON object. -/
def pyGetD (fields : List (String × Json)) (key : String) (dflt : Json) : Json :=
  (fields.lookup key).getD dflt

/-- ASCII digit character of a value below ten. -/
def digitChar (n : Nat) : Char := Char.ofNat (48 + n)

def pad2 (n : Nat) : List Char := [digitChar (n / 10 % 10), digitChar (n % 10)]

def pad4 (n : Nat) : List Char :=
  [digitChar (n / 1000 % 10), digitChar (n / 100 % 10), digitChar (n / 10 % 10),
   digitChar (n % 10)]

def pad6 (n : Nat) : List Char :=
  [digitChar (n / 100000 % 10), digitChar (n / 10000 % 10), digitChar (n / 1000 % 10),
   digitChar (n / 100 % 10), digitChar (n / 10 % 10), digitChar (n % 10)]

/-- The characters of `d.isoformat()` for a UTC-aware datetime `d`:
date, `T`, time, fractional seconds exactly when nonzero, and the
`+00:00` offset. -/
def isoFormatChars (d : DateTime) : List Char :=
  pad4 d.year ++ '-' :: pad2 d.month ++ '-' :: pad2 d.day ++ 'T' :: pad2 d.hour ++
    ':' :: pad2 d.minute ++ ':' :: pad2 d.second ++
    (if d.microsecond = 0 then [] else '.' :: pad6 d.microsecond) ++
    ['+', '0', '0', ':', '0', '0']

def isoFormat (d : DateTime) : String := ⟨isoFormatChars d⟩

/-- Parse one ASCII digit character. -/
def parseDigit (c : Char) : Option Nat :=
  if 48 ≤ c.toNat ∧ c.toNat ≤ 57 then some (c.toNat - 48) else none

def parse2 (a b : Char) : Option Nat := do
  let x ← parseDigit a
  let y ← parseDigit b
  pure (10 * x + y)

def parse4 (a b c d : Char) : Option Nat := do
  let x ← parse2 a b
  let y ← parse2 c d
  pure (100 * x + y)

def parse6 (a b c d e f : Char) : Option Nat := do
  let x ← parse2 a b
  let y ← parse2 c d
  let z ← parse2 e f
  pure (10000 * x + 100 * y + z)

/-- Optional fractional-second part.  `datetime.fromisoformat` accepts a
dot followed by fractional digits; the six-digit form is the one
`isoformat` emits and the only one modelled here. -/
def parseFrac : List Char → Option (Nat × List Char)
  | '.' :: a :: b :: c :: d :: e :: f :: rest => do
      let us ← parse6 a b c d e f
      pure (us, rest)
  | '.' :: _ => none
  | l => some (0, l)

/-- Construct a datetime from parsed fields, validating them the way the
`datetime` constructor called by `fromisoformat` does. -/
def mkValidDateTime (y mo da h mi se us : Nat) : Option DateTime :=
  if 1 ≤ y ∧ 1 ≤ mo ∧ mo ≤ 12 ∧ 1 ≤ da ∧ da ≤ daysInMonth y mo ∧
      h ≤ 23 ∧ mi ≤ 59 ∧ se ≤ 59 then
    some ⟨y, mo, da, h, mi, se, us⟩
  else none

/-- Apply a trailing UTC-offset suffix and normalise to UTC, as
`_ensure_utc ∘ fromisoformat` does: no suffix means a naive datetime
that `_ensure_utc` stamps as UTC (same fields); `Z` or a zero offset
leaves the fields unchanged; a nonzero offset shifts the instant. -/
def applyOffset (dt : DateTime) : List Char → Option DateTime
  | [] => some dt
  | ['Z'] => some dt
  | [sgn, o1, o2, ':', o3, o4] => do
      let hh ← parse2 o1 o2
      let mm ← parse2 o3 o4
      if (sgn = '+' ∨ sgn = '-') ∧ hh ≤ 23 ∧ mm ≤ 59 then
        if hh = 0 ∧ mm = 0 then some dt
        else
          let off : Int := (if sgn = '+' then 1 else -1) * (hh * 3600 + mm * 60)
          some (addSeconds dt (-off))
      else none
  | _ => none

/-- Parse the characters of an ISO-8601 datetime of the shape
`isoformat` emits (`datetime.fromisoformat` restricted to that shape;
the separator may be any single character, as in CPython). -/
def parseIsoChars : List Char → Option DateTime
  | y1 :: y2 :: y3 :: y4 :: '-' :: m1 :: m2 :: '-' :: d1 :: d2 :: _sep ::
      h1 :: h2 :: ':' :: i1 :: i2 :: ':' :: s1 :: s2 :: rest => do
      let y ← parse4 y1 y2 y3 y4
      let mo ← parse2 m1 m2
      let da ← parse2 d1 d2
      let h ← parse2 h1 h2
      let mi ← parse2 i1 i2
      let se ← parse2 s1 s2
      let fr ← parseFrac rest
      let dt ← mkValidDateTime y mo da h mi se fr.1
      applyOffset dt fr.2
  | _ => none

def isoParse (s : String) : Option DateTime := parseIsoChars s.data

/-- The function `_serialize_time` of `src/scheduler.py` as a JSON
value: `None` serialises as `null`, a datetime as its ISO string. -/
def serialize_time : Option DateTime → Json
  | Option.none => .null
  | some d => .str (isoFormat d)

/-- Python exceptions relevant to loading. -/
inductive PyError where
  | attributeError
deriving DecidableEq, Repr

/-- The function `_parse_time` of `src/scheduler.py` applied to a JSON
value, as the record-loading `try` block observes it: `null` (a missing
or null field) gives `None`; a string is parsed (`ValueError` on
failure, folded into `none` here since the caller catches it); any
other value makes `fromisoformat` raise `TypeError`, also caught. -/
def parse_time : Json → Option (Option DateTime)
  | .null => some Option.none
  | .str s =>
      match isoParse s with
      | some d => some (some d)
      | Option.none => Option.none
  | _ => Option.none

/-- Python `int(value)` on a JSON value: numbers pass through, booleans
are the integers 0 and 1, digit strings parse (optional sign, modelled
for the plain-decimal forms), everything else raises `TypeError` or
`ValueError`, which the record loader catches. -/
def jsonToInt : Json → Option Int
  | .num n => some n
  | .bool b => some (if b then 1 else 0)
  | .str s =>
      match s.data with
      | '-' :: ds => if ds ≠ [] ∧ ds.all isAsciiDigit then some (-(digitsToNat ds : Int)) else Option.none
      | ds => if ds ≠ [] ∧ ds.all isAsciiDigit then some (digitsToNat ds : Int) else Option.none
  | _ => Option.none

/-- Python `bool(value)` truthiness of a JSON value. -/
def jsonTruthy : Json → Bool
  | .null => false
  | .bool b => b
  | .num n => n ≠ 0
  | .str s => s ≠ ""
  | .obj fs => !fs.isEmpty

/-- The value `state_data.get("paused_reason")` is stored on the state
without conversion.  Scheduler-written files only ever hold a string or
`null` there; any other JSON value would be carried opaquely by Python
and is represented by a placeholder string, preserving only that it is
not `None`. -/
def jsonToPaused : Json → Option String
  | .null => Option.none
  | .str s => some s
  | _ => some "?"

/-- One provider record of `WakeupScheduler._persist_state`. -/
def serializeRecord (st : ProviderScheduleState) : Json :=
  .obj [("next_run_at", serialize_time (some st.next_run_at)),
        ("weekly_next_run_at", serialize_time st.weekly_next_run_at),
        ("last_success_at", serialize_time st.last_success_at),
        ("last_attempt_at", serialize_time st.last_attempt_at),
        ("consecutive_failures", .num st.consecutive_failures),
        ("paused_reason", match st.paused_reason with
          | Option.none => .null
          | some s => .str s),
        ("backoff_until", serialize_time st.backoff_until),
        ("auth_request_sent", .bool st.auth_request_sent)]

/-- The full snapshot payload of `WakeupScheduler._persist_state`. -/
def persist_payload (states : List (String × ProviderScheduleState)) : Json :=
  .obj [("schema_version", .num 1),
        ("providers", .obj (states.map fun p => (p.1, serializeRecord p.2)))]

/-- One iteration of the per-record `try` block of
`WakeupScheduler._load_state` (lines 582-601): a non-dict record is
skipped, a record whose mandatory `next_run_at` is null or unparsable
is discarded, and any conversion error discards just this record. -/
def parseRecord (j : Json) : Option ProviderScheduleState :=
  match j with
  | .obj fs => do
      let nra ← parse_time (pyGet fs "next_run_at")
      let nra ← nra
      let weekly ← parse_time (pyGet fs "weekly_next_run_at")
      let lsa ← parse_time (pyGet fs "last_success_at")
      let laa ← parse_time (pyGet fs "last_attempt_at")
      let cf ← jsonToInt (pyGetD fs "consecutive_failures" (.num 0))
      let paused := jsonToPaused (pyGet fs "paused_reason")
      let bu ← parse_time (pyGet fs "backoff_until")
      pure { next_run_at := nra
             weekly_next_run_at := weekly
             last_success_at := lsa
             last_attempt_at := laa
             consecutive_failures := cf
             paused_reason := paused
             backoff_until := bu
             auth_request_sent := jsonTruthy (pyGetD fs "auth_request_sent" (.bool false)) }
  | _ => Option.none

/-- What `_load_state` starts from: the state file may be missing, its
bytes unreadable (`OSError`), its text undecodable (`JSONDecodeError`),
or a JSON document. -/
inductive LoadInput where
  | missing
  | unreadable
  | malformed
  | parsed (j : Json)

/-- The method `WakeupScheduler._load_state`.  A missing file and both
caught exception classes give the empty mapping.  On a decoded document
`payload.get("providers")` is looked up — which raises
`AttributeError` when the document's top level is not an object, an
exception the method does not catch — then each configured provider's
record is loaded independently. -/
def load_state (input : LoadInput) (providerNames : List String) :
    Except PyError (List (String × ProviderScheduleState)) :=
  match input with
  | .missing => .ok []
  | .unreadable => .ok []
  | .malformed => .ok []
  | .parsed j =>
      match j with
      | .obj fs =>
          match pyGet fs "providers" with
          | .obj provs =>
              .ok (provs.filterMap fun p =>
                if p.1 ∈ providerNames then
                  (parseRecord p.2).map fun st => (p.1, st)
                else Option.none)
          | _ => .ok []
      | _ => .error .attributeError

/-- The state `WakeupScheduler.start` installs for one provider: the
loaded record adjusted by `start_adjust`, or a synthesised default when
the provider had no (valid) record on disk. -/
def startup_state (cfg : ProviderConfig) (now : DateTime)
    (rec : Option ProviderScheduleState) : ProviderScheduleState :=
  match rec with
  | Option.none => default_state cfg now
  | some st => start_adjust cfg now st

/-- Every time field of the state is a datetime Python can represent. -/
def ProviderScheduleState.ValidTimes (st : ProviderScheduleState) : Prop :=
  st.next_run_at.Valid ∧ OptValid st.weekly_next_run_at ∧ OptValid st.last_success_at ∧
  OptValid st.last_attempt_at ∧ OptValid st.backoff_until

instance (st : ProviderScheduleState) : Decidable st.ValidTimes := by
  unfold ProviderScheduleState.ValidTimes; infer_instance

/-! ## Round-trip of the time encoding -/

theorem parseDigit_digitChar : ∀ n < 10, parseDigit (digitChar n) = some n := by decide

theorem parse2_digits (a b : Nat) (ha : a < 10) (hb : b < 10) :
    parse2 (digitChar a) (digitChar b) = some (10 * a + b) := by
  rw [parse2, parseDigit_digitChar _ ha, parseDigit_digitChar _ hb]
  rfl

theorem parse2_pad2 (n : Nat) (h : n < 100) :
    parse2 (digitChar (n / 10 % 10)) (digitChar (n % 10)) = some n := by
  rw [parse2_digits _ _ (by omega) (by omega)]
  congr 1
  omega

theorem parse4_pad (n : Nat) (h : n < 10000) :
    parse4 (digitChar (n / 1000 % 10)) (digitChar (n / 100 % 10))
      (digitChar (n / 10 % 10)) (digitChar (n % 10)) = some n := by
  rw [parse4, parse2_digits _ _ (by omega) (by omega), parse2_digits _ _ (by omega) (by omega)]
  simp only [Option.bind_eq_bind, Option.some_bind, Option.pure_def]
  congr 1
  omega

theorem parse6_pad (n : Nat) (h : n < 1000000) :
    parse6 (digitChar (n / 100000 % 10)) (digitChar (n / 10000 % 10))
      (digitChar (n / 1000 % 10)) (digitChar (n / 100 % 10))
      (digitChar (n / 10 % 10)) (digitChar (n % 10)) = some n := by
  rw [parse6, parse2_digits _ _ (by omega) (by omega), parse2_digits _ _ (by omega) (by omega),
    parse2_digits _ _ (by omega) (by omega)]
  simp only [Option.bind_eq_bind, Option.some_bind, Option.pure_def]
  congr 1
  omega

theorem daysInMonth_le (y m : Nat) : daysInMonth y m ≤ 31 := by
  unfold daysInMonth
  repeat' split
  all_goals omega

theorem parseIso_isoFormat (d : DateTime) (hv : d.Valid) :
    parseIsoChars (isoFormatChars d) = some d := by
  obtain ⟨y, mo, da, hh, mi, se, us⟩ := d
  simp only [DateTime.Valid] at hv
  obtain ⟨hy1, hy2, hm1, hm2, hd1, hd2, hh1, hmi1, hse1, hus1⟩ := hv
  have hdm := daysInMonth_le y mo
  have hmk : mkValidDateTime y mo da hh mi se us = some ⟨y, mo, da, hh, mi, se, us⟩ := by
    rw [mkValidDateTime, if_pos]
    exact ⟨hy1, hm1, hm2, hd1, hd2, hh1, hmi1, hse1⟩
  have hoff : applyOffset ⟨y, mo, da, hh, mi, se, us⟩ ['+', '0', '0', ':', '0', '0'] =
      some ⟨y, mo, da, hh, mi, se, us⟩ := rfl
  by_cases hus0 : us = 0
  · subst hus0
    have hfrac : parseFrac ['+', '0', '0', ':', '0', '0'] =
        some (0, ['+', '0', '0', ':', '0', '0']) := rfl
    simp only [isoFormatChars, pad4, pad2, if_pos rfl, if_true, List.cons_append,
      List.nil_append, List.append_nil]
    rw [parseIsoChars]
    rw [parse4_pad y (by omega), parse2_pad2 mo (by omega), parse2_pad2 da (by omega),
      parse2_pad2 hh (by omega), parse2_pad2 mi (by omega), parse2_pad2 se (by omega)]
    simp only [Option.bind_eq_bind, Option.some_bind, hfrac, Option.pure_def, hmk, hoff]
  · simp only [isoFormatChars, pad4, pad2, pad6, if_neg hus0, List.cons_append,
      List.nil_append, List.append_nil]
    rw [parseIsoChars]
    rw [parse4_pad y (by omega), parse2_pad2 mo (by omega), parse2_pad2 da (by omega),
      parse2_pad2 hh (by omega), parse2_pad2 mi (by omega), parse2_pad2 se (by omega)]
    simp only [Option.bind_eq_bind, Option.some_bind, parseFrac]
    rw [parse6_pad us (by omega)]
    simp only [Option.pure_def, Option.some_bind, hmk, hoff]

theorem parse_serialize_time (o : Option DateTime) (hv : OptValid o) :
    parse_time (serialize_time o) = some o := by
  cases o with
  | none => rfl
  | some d =>
      simp only [serialize_time, parse_time, isoParse, isoFormat]
      rw [parseIso_isoFormat d hv]

/-- Unfolding of `parseRecord` on an object with the exact field list
`_persist_state` writes. -/
theorem parseRecord_obj (j1 j2 j3 j4 j5 j6 j7 j8 : Json) :
    parseRecord (Json.obj [("next_run_at", j1), ("weekly_next_run_at", j2),
      ("last_success_at", j3), ("last_attempt_at", j4), ("consecutive_failures", j5),
      ("paused_reason", j6), ("backoff_until", j7), ("auth_request_sent", j8)]) =
    (parse_time j1).bind (fun onra => onra.bind fun nra =>
      (parse_time j2).bind fun weekly =>
      (parse_time j3).bind fun lsa =>
      (parse_time j4).bind fun laa =>
      (jsonToInt j5).bind fun cf =>
      (parse_time j7).bind fun bu =>
      some { next_run_at := nra, weekly_next_run_at := weekly, last_success_at := lsa,
             last_attempt_at := laa, consecutive_failures := cf,
             paused_reason := jsonToPaused j6, backoff_until := bu,
             auth_request_sent := jsonTruthy j8 }) := rfl

theorem parseRecord_serializeRecord (st : ProviderScheduleState) (hv : st.ValidTimes) :
    parseRecord (serializeRecord st) = some st := by
  obtain ⟨nra, weekly, lsa, laa, cf, paused, bu, ars⟩ := st
  simp only [ProviderScheduleState.ValidTimes] at hv
  obtain ⟨h1, h2, h3, h4, h5⟩ := hv
  rw [serializeRecord, parseRecord_obj]
  rw [parse_serialize_time (some nra) h1, parse_serialize_time _ h2,
    parse_serialize_time _ h3, parse_serialize_time _ h4, parse_serialize_time _ h5]
  cases paused <;> rfl

theorem loadRecords_roundtrip (names : List String) :
    ∀ (states : List (String × ProviderScheduleState)),
      (∀ p ∈ states, p.2.ValidTimes) →
      ((states.map fun p => (p.1, serializeRecord p.2)).filterMap fun p =>
        if p.1 ∈ names then (parseRecord p.2).map fun st => (p.1, st) else Option.none) =
      states.filter fun p => decide (p.1 ∈ names) := by
  intro states
  induction states with
  | nil => intro _; rfl
  | cons p rest ih =>
      intro hv
      have hp : p.2.ValidTimes := hv p (by simp)
      have hrest : ∀ q ∈ rest, q.2.ValidTimes := fun q hq => hv q (by simp [hq])
      simp only [List.map_cons, List.filterMap_cons, List.filter_cons]
      rw [parseRecord_serializeRecord p.2 hp]
      by_cases hm : p.1 ∈ names
      · simp [hm, ih hrest]
      · simp [hm, ih hrest]

/-! ## Scenario fixtures -/

/-- A rolling-reset provider configuration with an 18000-second window
and a 10-second post-success delay (the codex defaults). -/
def rollingCfg : ProviderConfig :=
  { name := "codex", model := "m", wakeup_message := "hi", reset_mode := .rolling
    window_seconds := 18000, wake_delay_seconds := 10 }

/-- A clock-aligned provider configuration with an 18000-second window
and a 2-second post-success delay. -/
def clockCfg : ProviderConfig :=
  { name := "claude", model := "m", wakeup_message := "hi", reset_mode := .clock_aligned_hour
    window_seconds := 18000, wake_delay_seconds := 2 }

/-- The scenario timestamp 2026-02-10T10:13:00Z. -/
def scenarioSuccess : DateTime := ⟨2026, 2, 10, 10, 13, 0, 0⟩

/-! ## Claim theorems -/

/-- C1: for every provider configuration in rolling reset mode and every
success timestamp `t`, `compute_next_run` returns exactly
`t + window_seconds + wake_delay_seconds`; with an 18000-second window
and a 10-second delay, a success at 2026-02-10T10:13:00Z schedules the
next run at 2026-02-10T15:13:10Z. -/
theorem rolling_next_run_spec :
    (∀ (cfg : ProviderConfig) (t : DateTime), cfg.reset_mode = ResetMode.rolling →
      compute_next_run cfg t = addSeconds t (cfg.window_seconds + cfg.wake_delay_seconds)) ∧
    compute_next_run rollingCfg scenarioSuccess = ⟨2026, 2, 10, 15, 13, 10, 0⟩ := by
  constructor
  · intro cfg t h
    simp [compute_next_run, h]
  · rfl

theorem rolling_next_run_spec_witness :
    compute_next_run rollingCfg scenarioSuccess =
      addSeconds scenarioSuccess (rollingCfg.window_seconds + rollingCfg.wake_delay_seconds) :=
  rolling_next_run_spec.1 rollingCfg scenarioSuccess rfl

/-- C2: for every provider configuration in clock-aligned-hour reset
mode and every UTC success timestamp `t`, `compute_next_run` truncates
`t` to the start of its hour (discarding minutes, seconds and
sub-seconds) and adds `window_seconds + wake_delay_seconds`; with an
18000-second window and a 2-second delay, a success at
2026-02-10T10:13:00Z schedules the next run at 2026-02-10T15:00:02Z. -/
theorem clock_aligned_next_run_spec :
    (∀ (cfg : ProviderConfig) (t : DateTime), cfg.reset_mode = ResetMode.clock_aligned_hour →
      compute_next_run cfg t =
        addSeconds { t with minute := 0, second := 0, microsecond := 0 }
          (cfg.window_seconds + cfg.wake_delay_seconds)) ∧
    compute_next_run clockCfg scenarioSuccess = ⟨2026, 2, 10, 15, 0, 2, 0⟩ := by
  constructor
  · intro cfg t h
    simp [compute_next_run, h]
  · rfl

theorem clock_aligned_next_run_spec_witness :
    compute_next_run clockCfg scenarioSuccess =
      addSeconds { scenarioSuccess with minute := 0, second := 0, microsecond := 0 }
        (clockCfg.window_seconds + clockCfg.wake_delay_seconds) :=
  clock_aligned_next_run_spec.1 clockCfg scenarioSuccess rfl

/-- A text contains no recognized unit word when no suffix of it starts
(case-insensitively) with `day`, `hour`, `minute` or `second`. -/
def NoUnitWord (l : List Char) : Prop :=
  ∀ t, List.IsSuffix t l → unitHead t = Option.none

instance (l : List Char) : Decidable (NoUnitWord l) :=
  decidable_of_iff (∀ t ∈ l.tails, unitHead t = Option.none) (by
    constructor
    · intro h t ht
      exact h t ((List.mem_tails t l).mpr ht)
    · intro h t ht
      exact h t ((List.mem_tails t l).mp ht))

theorem tryMatch_none_of_noUnit (l : List Char) (h : NoUnitWord l) :
    tryMatch l = Option.none := by
  unfold tryMatch
  split
  · rfl
  · rw [h _ (List.IsSuffix.trans (List.dropWhile_suffix isPySpace)
      (List.dropWhile_suffix isAsciiDigit))]

theorem noUnitWord_tail {c : Char} {cs : List Char} (h : NoUnitWord (c :: cs)) :
    NoUnitWord cs :=
  fun t ht => h t (ht.trans (List.suffix_cons c cs))

theorem findMatchesAux_eq_nil :
    ∀ (fuel : Nat) (l : List Char), NoUnitWord l → findMatchesAux fuel l = [] := by
  intro fuel
  induction fuel with
  | zero => intro l _; rfl
  | succ f ih =>
      intro l h
      cases l with
      | nil => rfl
      | cons c cs =>
          simp only [findMatchesAux]
          rw [tryMatch_none_of_noUnit _ h]
          exact ih cs (noUnitWord_tail h)

theorem findMatches_eq_nil (l : List Char) (h : NoUnitWord l) : findMatches l = [] :=
  findMatchesAux_eq_nil _ _ h

/-- C9 (amended): a `<integer> <unit>` token whose unit is outside
day(s)/hour(s)/minute(s)/second(s) is not matched by the duration
pattern at all and contributes nothing to the total — integers with
unrecognized units are NOT counted as seconds — so on any text
containing no recognized unit word the parser finds no matches and
returns no duration. -/
theorem no_recognized_unit_no_duration_spec (s : String) (h : NoUnitWord s.data) :
    parse_duration_seconds (some s) = Option.none := by
  simp only [parse_duration_seconds]
  split
  · rfl
  · rw [findMatches_eq_nil s.data h]
    rfl

theorem no_recognized_unit_no_duration_spec_witness :
    parse_duration_seconds (some "in 5 weeks 3 fortnights") = Option.none :=
  no_recognized_unit_no_duration_spec "in 5 weeks 3 fortnights" (by decide)

/-- C9 (counterexample): the claim predicts that in `"5 weeks"` the
integer 5 is counted as seconds, so the parser would return 5; in fact
the token does not match the pattern and the parser returns no
duration. -/
theorem unknown_unit_not_counted :
    parse_duration_seconds (some "5 weeks") = Option.none ∧
    parse_duration_seconds (some "5 weeks") ≠ some 5 := by
  constructor
  · rfl
  · decide

/-- C3: when an attempt fails with transient kind (or with no
classified kind, which defaults to transient) and the state entering
the attempt records `n - 1` consecutive failures (`n ≥ 1`), the attempt
stores `n` consecutive failures, stamps `last_attempt_at = now`, and
sets `backoff_until`, `next_run_at` and `weekly_next_run_at` all to
`now + min(retry_base_seconds * 2^(n-1), retry_max_seconds)` — so the
gap between `last_attempt_at` and `next_run_at` is exactly the capped
exponential backoff. -/
theorem transient_backoff_spec (sched : SchedulerConfig) (cfg : ProviderConfig)
    (st : ProviderScheduleState) (now : DateTime) (result : WakeupResult)
    (trig : Bool) (n : Nat)
    (hs : result.success = false)
    (hk : result.failure_kind = WakeupFailureKind.transient ∨
      result.failure_kind = WakeupFailureKind.none)
    (hn : 1 ≤ n)
    (hcf : st.consecutive_failures = (n : Int) - 1) :
    (attempt_wakeup sched cfg st now result trig).1.consecutive_failures = (n : Int) ∧
    (attempt_wakeup sched cfg st now result trig).1.last_attempt_at = some now ∧
    (attempt_wakeup sched cfg st now result trig).1.backoff_until =
      some (addSeconds now
        (min (sched.retry_base_seconds * 2 ^ (n - 1)) sched.retry_max_seconds)) ∧
    (attempt_wakeup sched cfg st now result trig).1.next_run_at =
      addSeconds now
        (min (sched.retry_base_seconds * 2 ^ (n - 1)) sched.retry_max_seconds) ∧
    (attempt_wakeup sched cfg st now result trig).1.weekly_next_run_at =
      some (addSeconds now
        (min (sched.retry_base_seconds * 2 ^ (n - 1)) sched.retry_max_seconds)) := by
  have he : ((st.consecutive_failures + 1 - 1).toNat) = n - 1 := by omega
  rcases hk with hk | hk <;>
    cases hw : st.weekly_next_run_at <;>
      simp [attempt_wakeup, hs, hk, hw, he, hcf]

/-- A scheduler configuration with a 1-second retry base and an
8-second retry cap. -/
def backoffSched : SchedulerConfig :=
  { state_path := "state.json", auth_recheck_seconds := 60
    retry_base_seconds := 1, retry_max_seconds := 8 }

/-- A failed attempt result of transient kind. -/
def transientFail : WakeupResult :=
  { success := false, message := "network error", failure_kind := .transient }

theorem transient_backoff_spec_witness :
    (attempt_wakeup backoffSched rollingCfg
        { next_run_at := scenarioSuccess, consecutive_failures := 2 }
        scenarioSuccess transientFail false).1.next_run_at =
      addSeconds scenarioSuccess (min (1 * 2 ^ (3 - 1)) 8) ∧
    (attempt_wakeup backoffSched rollingCfg
        { next_run_at := scenarioSuccess, consecutive_failures := 2 }
        scenarioSuccess transientFail false).1.next_run_at = ⟨2026, 2, 10, 10, 13, 4, 0⟩ :=
  ⟨(transient_backoff_spec backoffSched rollingCfg _ scenarioSuccess transientFail false 3
      rfl (Or.inl rfl) (by omega) rfl).2.2.2.1, by decide⟩

/-- C5: when an attempt fails with rate-limit kind, the attempt clears
`paused_reason`, `backoff_until` and `auth_request_sent`, and sets
`next_run_at = now + reset + wake_delay_seconds` and
`weekly_next_run_at = now + reset + weekly_wake_delay_seconds`, where
`reset` is the duration parsed from the result's rate-limit hint, or
the configured `window_seconds` when parsing yields no duration. -/
theorem rate_limit_reschedule_spec (sched : SchedulerConfig) (cfg : ProviderConfig)
    (st : ProviderScheduleState) (now : DateTime) (result : WakeupResult)
    (trig : Bool) (reset : Int)
    (hs : result.success = false)
    (hk : result.failure_kind = WakeupFailureKind.rate_limit)
    (hr : reset = match parse_duration_seconds result.rate_limit_reset with
      | some n => (n : Int)
      | Option.none => cfg.window_seconds) :
    (attempt_wakeup sched cfg st now result trig).1.paused_reason = Option.none ∧
    (attempt_wakeup sched cfg st now result trig).1.backoff_until = Option.none ∧
    (attempt_wakeup sched cfg st now result trig).1.auth_request_sent = false ∧
    (attempt_wakeup sched cfg st now result trig).1.next_run_at =
      addSeconds now (reset + cfg.wake_delay_seconds) ∧
    (attempt_wakeup sched cfg st now result trig).1.weekly_next_run_at =
      some (addSeconds now (reset + cfg.weekly_wake_delay_seconds)) := by
  cases hw : st.weekly_next_run_at <;>
    cases hp : parse_duration_seconds result.rate_limit_reset <;>
      (subst hr; simp [attempt_wakeup, hs, hk, hw, hp])

/-- A failed attempt result of rate-limit kind whose hint parses to
5400 seconds. -/
def rateLimitFail : WakeupResult :=
  { success := false, message := "limit reached", failure_kind := .rate_limit
    rate_limit_reset := some "1 hour 30 minutes" }

theorem rate_limit_reschedule_spec_witness :
    (attempt_wakeup backoffSched rollingCfg
        { next_run_at := scenarioSuccess, consecutive_failures := 4,
          paused_reason := some "auth_required", auth_request_sent := true }
        scenarioSuccess rateLimitFail false).1.next_run_at =
      addSeconds scenarioSuccess ((5400 : Int) + 10) ∧
    (attempt_wakeup backoffSched rollingCfg
        { next_run_at := scenarioSuccess, consecutive_failures := 4,
          paused_reason := some "auth_required", auth_request_sent := true }
        scenarioSuccess rateLimitFail false).1.next_run_at = ⟨2026, 2, 10, 11, 43, 10, 0⟩ :=
  ⟨(rate_limit_reschedule_spec backoffSched rollingCfg _ scenarioSuccess rateLimitFail false
      5400 rfl rfl (by decide)).2.2.2.1, by decide⟩

/-- C10: a rate-limit failure resets `consecutive_failures` to 0 — the
same reset a success performs — and clears `backoff_until`, so a
rate-limit failure after a run of transient failures erases the
accumulated exponential-backoff progression even though the attempt did
not succeed. -/
theorem rate_limit_resets_failures_spec (sched : SchedulerConfig) (cfg : ProviderConfig)
    (st : ProviderScheduleState) (now : DateTime) (result result' : WakeupResult)
    (trig trig' : Bool)
    (hs : result.success = false)
    (hk : result.failure_kind = WakeupFailureKind.rate_limit)
    (hs' : result'.success = true) :
    (attempt_wakeup sched cfg st now result trig).1.consecutive_failures = 0 ∧
    (attempt_wakeup sched cfg st now result trig).1.backoff_until = Option.none ∧
    (attempt_wakeup sched cfg st now result' trig').1.consecutive_failures = 0 := by
  refine ⟨?_, ?_, ?_⟩ <;>
    cases hw : st.weekly_next_run_at <;>
      cases hp : parse_duration_seconds result.rate_limit_reset <;>
        simp [attempt_wakeup, hs, hk, hs', hw, hp] <;>
          split_ifs <;> simp

theorem rate_limit_resets_failures_spec_witness :
    (attempt_wakeup backoffSched rollingCfg
        { next_run_at := scenarioSuccess, consecutive_failures := 5 }
        scenarioSuccess rateLimitFail false).1.consecutive_failures = 0 :=
  (rate_limit_resets_failures_spec backoffSched rollingCfg _ scenarioSuccess rateLimitFail
    { success := true, message := "ok" } false false rfl rfl rfl).1

/-- One attempt's inputs: the clock reading and the provider's result. -/
structure AttemptInput where
  now : DateTime
  result : WakeupResult
  triggered_by_user : Bool

/-- Run a sequence of attempts for one provider, returning the final
state and the number of times the external re-authentication request
was invoked along the way. -/
def runAttempts (sched : SchedulerConfig) (cfg : ProviderConfig) :
    ProviderScheduleState → List AttemptInput → ProviderScheduleState × Nat
  | st, [] => (st, 0)
  | st, i :: rest =>
      let r := attempt_wakeup sched cfg st i.now i.result i.triggered_by_user
      let rest' := runAttempts sched cfg r.1 rest
      (rest'.1, (if r.2.authRequested then 1 else 0) + rest'.2)

/-- An input whose result is an authentication failure. -/
def AttemptInput.IsAuthFailure (i : AttemptInput) : Prop :=
  i.result.success = false ∧ i.result.failure_kind = WakeupFailureKind.auth

theorem auth_step_flag (sched : SchedulerConfig) (cfg : ProviderConfig)
    (st : ProviderScheduleState) (now : DateTime) (result : WakeupResult) (trig : Bool)
    (hs : result.success = false) (hk : result.failure_kind = WakeupFailureKind.auth) :
    (attempt_wakeup sched cfg st now result trig).1.auth_request_sent = true ∧
    (attempt_wakeup sched cfg st now result trig).2.authRequested =
      !st.auth_request_sent := by
  cases hw : st.weekly_next_run_at <;>
    cases ha : st.auth_request_sent <;>
      simp [attempt_wakeup, hs, hk, hw, ha]

theorem runAttempts_auth_sent (sched : SchedulerConfig) (cfg : ProviderConfig) :
    ∀ (steps : List AttemptInput) (st : ProviderScheduleState),
      st.auth_request_sent = true →
      (∀ i ∈ steps, i.IsAuthFailure) →
      (runAttempts sched cfg st steps).2 = 0 ∧
      (runAttempts sched cfg st steps).1.auth_request_sent = true := by
  intro steps
  induction steps with
  | nil => intro st h _; exact ⟨rfl, h⟩
  | cons i rest ih =>
      intro st hflag hall
      obtain ⟨hs, hk⟩ := hall i (by simp)
      have hstep := auth_step_flag sched cfg st i.now i.result i.triggered_by_user hs hk
      have hreq : (attempt_wakeup sched cfg st i.now i.result i.triggered_by_user).2.authRequested
          = false := by rw [hstep.2, hflag]; rfl
      have hrest := ih (attempt_wakeup sched cfg st i.now i.result i.triggered_by_user).1
        hstep.1 (fun j hj => hall j (by simp [hj]))
      simp only [runAttempts, hreq, if_neg (by simp : ¬(false = true))]
      exact ⟨by rw [hrest.1], hrest.2⟩

/-- C4: within one pause episode, the external re-authentication
request is invoked exactly once.  Concretely: starting from a state
whose `auth_request_sent` flag is clear, any nonempty run of
authentication-failure attempts invokes the request exactly once;
starting from a state whose flag is already set, such a run never
invokes the request again and leaves the flag set; a single
authentication failure invokes the request precisely when the flag was
clear, and always leaves the flag set; and any successful attempt
clears the flag. -/
theorem auth_pause_single_request_spec (sched : SchedulerConfig) (cfg : ProviderConfig) :
    (∀ (st : ProviderScheduleState) (steps : List AttemptInput),
      st.auth_request_sent = false → steps ≠ [] → (∀ i ∈ steps, i.IsAuthFailure) →
      (runAttempts sched cfg st steps).2 = 1) ∧
    (∀ (st : ProviderScheduleState) (steps : List AttemptInput),
      st.auth_request_sent = true → (∀ i ∈ steps, i.IsAuthFailure) →
      (runAttempts sched cfg st steps).2 = 0 ∧
      (runAttempts sched cfg st steps).1.auth_request_sent = true) ∧
    (∀ (st : ProviderScheduleState) (now : DateTime) (result : WakeupResult) (trig : Bool),
      result.success = false → result.failure_kind = WakeupFailureKind.auth →
      (attempt_wakeup sched cfg st now result trig).2.authRequested =
        !st.auth_request_sent ∧
      (attempt_wakeup sched cfg st now result trig).1.auth_request_sent = true) ∧
    (∀ (st : ProviderScheduleState) (now : DateTime) (result : WakeupResult) (trig : Bool),
      result.success = true →
      (attempt_wakeup sched cfg st now result trig).1.auth_request_sent = false) := by
  refine ⟨?_, ?_, ?_, ?_⟩
  · intro st steps hflag hne hall
    cases steps with
    | nil => exact absurd rfl hne
    | cons i rest =>
        obtain ⟨hs, hk⟩ := hall i (by simp)
        have hstep := auth_step_flag sched cfg st i.now i.result i.triggered_by_user hs hk
        have hreq : (attempt_wakeup sched cfg st i.now i.result
            i.triggered_by_user).2.authRequested = true := by rw [hstep.2, hflag]; rfl
        have hrest := runAttempts_auth_sent sched cfg rest
          (attempt_wakeup sched cfg st i.now i.result i.triggered_by_user).1
          hstep.1 (fun j hj => hall j (by simp [hj]))
        simp [runAttempts, hreq, hrest.1]
  · intro st steps hflag hall
    exact runAttempts_auth_sent sched cfg steps st hflag hall
  · intro st now result trig hs hk
    exact ⟨(auth_step_flag sched cfg st now result trig hs hk).2,
      (auth_step_flag sched cfg st now result trig hs hk).1⟩
  · intro st now result trig hs
    cases hw : st.weekly_next_run_at <;> simp [attempt_wakeup, hs, hw] <;> split_ifs <;> simp

/-- A failed attempt result of authentication kind. -/
def authFail : WakeupResult :=
  { success := false, message := "please log in", failure_kind := .auth }

theorem auth_pause_single_request_spec_witness :
    (runAttempts backoffSched rollingCfg { next_run_at := scenarioSuccess }
      [⟨scenarioSuccess, authFail, false⟩, ⟨scenarioSuccess, authFail, false⟩,
       ⟨scenarioSuccess, authFail, false⟩]).2 = 1 :=
  (auth_pause_single_request_spec backoffSched rollingCfg).1
    { next_run_at := scenarioSuccess } _ rfl (by simp)
    (by intro i hi; fin_cases hi <;> exact ⟨rfl, rfl⟩)

/-- C6: persisting the full snapshot and loading it back reproduces
every field of every provider's state exactly, while any record whose
provider name is not configured is dropped. -/
theorem persist_load_roundtrip_spec (names : List String)
    (states : List (String × ProviderScheduleState))
    (hv : ∀ p ∈ states, p.2.ValidTimes) :
    load_state (.parsed (persist_payload states)) names =
      .ok (states.filter fun p => decide (p.1 ∈ names)) := by
  have h0 : load_state (.parsed (persist_payload states)) names =
      .ok ((states.map fun p => (p.1, serializeRecord p.2)).filterMap fun p =>
        if p.1 ∈ names then (parseRecord p.2).map fun st => (p.1, st) else Option.none) := rfl
  rw [h0, loadRecords_roundtrip names states hv]

/-- A fully populated schedule state used by the persistence witnesses. -/
def richState : ProviderScheduleState :=
  { next_run_at := ⟨2026, 2, 10, 15, 13, 10, 0⟩
    weekly_next_run_at := some ⟨2026, 2, 17, 1, 2, 3, 999999⟩
    last_success_at := Option.none
    last_attempt_at := some ⟨2026, 2, 10, 10, 13, 0, 1⟩
    consecutive_failures := 3
    paused_reason := some "auth_required"
    backoff_until := some ⟨2026, 2, 10, 15, 13, 10, 0⟩
    auth_request_sent := true }

theorem persist_load_roundtrip_spec_witness :
    load_state (.parsed (persist_payload
        [("codex", richState), ("legacy", richState)])) ["codex"] =
      .ok [("codex", richState)] := by
  rw [persist_load_roundtrip_spec ["codex"] [("codex", richState), ("legacy", richState)]
    (by decide)]
  rfl

/-- Unfolding of `load_state` on a payload holding a providers object. -/
theorem load_state_providers (names : List String) (provs : List (String × Json)) :
    load_state (.parsed (.obj [("providers", .obj provs)])) names =
      .ok (provs.filterMap fun p =>
        if p.1 ∈ names then (parseRecord p.2).map fun st => (p.1, st) else Option.none) := rfl

/-- C7 (counterexample): the claim says loading never raises, yet a
state file containing the valid JSON document `3` — malformed content
for this schema — makes `_load_state` raise `AttributeError`
(`payload.get` on a non-dict), which no handler catches. -/
theorem load_nonobject_payload_raises :
    load_state (.parsed (Json.num 3)) ["codex"] = .error PyError.attributeError := rfl

/-- C7 (amended): loading tolerates a missing file, an unreadable file,
and undecodable file text (each yields the empty mapping), and never
raises on any decoded JSON document whose top level is an object; a
record whose mandatory `next_run_at` is null/absent or unparsable is
discarded individually, leaving sibling records' loading unchanged.  A
decoded document whose top level is not an object, however, raises
`AttributeError`. -/
theorem load_state_tolerance_spec (names : List String) :
    load_state .missing names = .ok [] ∧
    load_state .unreadable names = .ok [] ∧
    load_state .malformed names = .ok [] ∧
    (∀ (fs : List (String × Json)), ∃ l, load_state (.parsed (.obj fs)) names = .ok l) ∧
    (∀ (fs : List (String × Json)),
      parse_time (pyGet fs "next_run_at") = some Option.none ∨
        parse_time (pyGet fs "next_run_at") = Option.none →
      parseRecord (.obj fs) = Option.none) ∧
    (∀ (name : String) (rec : Json) (rest : List (String × Json)),
      parseRecord rec = Option.none →
      load_state (.parsed (.obj [("providers", .obj ((name, rec) :: rest))])) names =
        load_state (.parsed (.obj [("providers", .obj rest)])) names) := by
  refine ⟨rfl, rfl, rfl, ?_, ?_, ?_⟩
  · intro fs
    cases hpv : pyGet fs "providers" <;> simp only [load_state, hpv] <;> exact ⟨_, rfl⟩
  · intro fs h
    simp only [parseRecord]
    rcases h with h | h <;> rw [h] <;> rfl
  · intro name rec rest hrec
    rw [load_state_providers, load_state_providers]
    simp [List.filterMap_cons, hrec]

theorem load_state_tolerance_spec_witness :
    load_state (.parsed (.obj [("providers", .obj
        [("bad", .obj [("next_run_at", Json.null)]), ("codex", serializeRecord richState)])]))
        ["codex", "bad"] =
      load_state (.parsed (.obj [("providers", .obj
        [("codex", serializeRecord richState)])])) ["codex", "bad"] :=
  (load_state_tolerance_spec ["codex", "bad"]).2.2.2.2.2 "bad"
    (.obj [("next_run_at", Json.null)]) [("codex", serializeRecord richState)] rfl

/-- The backoff linkage invariant: a pending backoff deadline is
always exactly the short-cycle due time. -/
def BackoffInv (st : ProviderScheduleState) : Prop :=
  ∀ b, st.backoff_until = some b → st.next_run_at = b

/-- States reachable through the scheduler's state-mutating operations:
freshly synthesised defaults, attempts of every outcome, explicit
short-cycle and weekly reschedules (including on a provider without
in-memory state), and a start-up load of the provider's persisted
record (the snapshot written by `_persist_state` parsed back by
`_load_state` and adjusted by `start`, falling back to a default when
the record does not parse).  Configurations vary freely between steps,
covering hot reload. -/
inductive ReachableState : ProviderScheduleState → Prop where
  | initial (cfg : ProviderConfig) (now : DateTime) : ReachableState (default_state cfg now)
  | attempt (sched : SchedulerConfig) (cfg : ProviderConfig) {st : ProviderScheduleState}
      (now : DateTime) (result : WakeupResult) (trig : Bool) :
      ReachableState st → ReachableState (attempt_wakeup sched cfg st now result trig).1
  | schedule_next (cfg : ProviderConfig) {st : ProviderScheduleState}
      (scheduled now : DateTime) :
      ReachableState st → ReachableState (schedule_next_wakeup_update cfg (some st) scheduled now)
  | schedule_next_new (cfg : ProviderConfig) (scheduled now : DateTime) :
      ReachableState (schedule_next_wakeup_update cfg Option.none scheduled now)
  | schedule_weekly (cfg : ProviderConfig) {st : ProviderScheduleState} (scheduled : DateTime) :
      ReachableState st →
      ReachableState (schedule_next_weekly_wakeup_update cfg (some st) scheduled)
  | schedule_weekly_new (cfg : ProviderConfig) (scheduled : DateTime) :
      ReachableState (schedule_next_weekly_wakeup_update cfg Option.none scheduled)
  | restart_load (cfg : ProviderConfig) (now : DateTime) {st : ProviderScheduleState} :
      ReachableState st →
      ReachableState (startup_state cfg now (parseRecord (serializeRecord st)))

theorem attempt_backoffInv (sched : SchedulerConfig) (cfg : ProviderConfig)
    (st : ProviderScheduleState) (now : DateTime) (result : WakeupResult) (trig : Bool) :
    BackoffInv (attempt_wakeup sched cfg st now result trig).1 := by
  unfold BackoffInv
  cases hw : st.weekly_next_run_at <;> cases hs : result.success <;>
    cases hk : result.failure_kind <;> cases ha : st.auth_request_sent <;>
      cases hp : parse_duration_seconds result.rate_limit_reset <;>
        simp [attempt_wakeup, hw, hs, hk, ha, hp] <;> split_ifs <;> simp

theorem schedule_next_backoffInv (cfg : ProviderConfig) (sto : Option ProviderScheduleState)
    (scheduled now : DateTime) :
    BackoffInv (schedule_next_wakeup_update cfg sto scheduled now) := by
  intro b hb
  simp [schedule_next_wakeup_update] at hb

theorem schedule_weekly_backoffInv (cfg : ProviderConfig) (sto : Option ProviderScheduleState)
    (scheduled : DateTime) :
    BackoffInv (schedule_next_weekly_wakeup_update cfg sto scheduled) := by
  intro b hb
  simp [schedule_next_weekly_wakeup_update] at hb

theorem start_adjust_backoffInv (cfg : ProviderConfig) (now : DateTime)
    (st : ProviderScheduleState) (h : BackoffInv st) :
    BackoffInv (start_adjust cfg now st) := by
  intro b hb
  cases hw : st.weekly_next_run_at <;> cases hls : st.last_success_at <;>
    cases hpr : st.paused_reason <;> cases hbu : st.backoff_until <;>
      simp [start_adjust, hw, hls, hpr, hbu] at hb ⊢ <;>
        first
          | (split_ifs at hb ⊢ <;> simp_all)
          | exact h b (hbu.trans (congrArg some hb))

/-- Inversion of `parseRecord` on an object carrying the exact field
list `_persist_state` writes. -/
theorem parseRecord_obj_inversion {j1 j2 j3 j4 j5 j6 j7 j8 : Json}
    {st' : ProviderScheduleState}
    (h : parseRecord (Json.obj [("next_run_at", j1), ("weekly_next_run_at", j2),
      ("last_success_at", j3), ("last_attempt_at", j4), ("consecutive_failures", j5),
      ("paused_reason", j6), ("backoff_until", j7), ("auth_request_sent", j8)]) = some st') :
    ∃ nra weekly lsa laa cf bu,
      parse_time j1 = some (some nra) ∧ parse_time j2 = some weekly ∧
      parse_time j3 = some lsa ∧ parse_time j4 = some laa ∧
      jsonToInt j5 = some cf ∧ parse_time j7 = some bu ∧
      st' = { next_run_at := nra, weekly_next_run_at := weekly, last_success_at := lsa,
              last_attempt_at := laa, consecutive_failures := cf,
              paused_reason := jsonToPaused j6, backoff_until := bu,
              auth_request_sent := jsonTruthy j8 } := by
  rw [parseRecord_obj] at h
  cases e1 : parse_time j1 with
  | none => rw [e1] at h; cases h
  | some onra =>
      rw [e1] at h
      simp only [Option.some_bind] at h
      cases onra with
      | none => cases h
      | some nra =>
          simp only [Option.some_bind] at h
          cases e2 : parse_time j2 with
          | none => rw [e2] at h; cases h
          | some weekly =>
              rw [e2] at h
              simp only [Option.some_bind] at h
              cases e3 : parse_time j3 with
              | none => rw [e3] at h; cases h
              | some lsa =>
                  rw [e3] at h
                  simp only [Option.some_bind] at h
                  cases e4 : parse_time j4 with
                  | none => rw [e4] at h; cases h
                  | some laa =>
                      rw [e4] at h
                      simp only [Option.some_bind] at h
                      cases e5 : jsonToInt j5 with
                      | none => rw [e5] at h; cases h
                      | some cf =>
                          rw [e5] at h
                          simp only [Option.some_bind] at h
                          cases e6 : parse_time j7 with
                          | none => rw [e6] at h; cases h
                          | some bu =>
                              rw [e6] at h
                              simp only [Option.some_bind, Option.some_inj] at h
                              exact ⟨nra, weekly, lsa, laa, cf, bu, rfl, rfl, rfl, rfl,
                                rfl, rfl, h.symm⟩

theorem parseRecord_serialized_backoffInv {st st' : ProviderScheduleState}
    (hi : BackoffInv st) (h : parseRecord (serializeRecord st) = some st') :
    BackoffInv st' := by
  rw [serializeRecord] at h
  obtain ⟨nra, weekly, lsa, laa, cf, bu, e1, _, _, _, _, e7, hst⟩ :=
    parseRecord_obj_inversion h
  intro b hb
  subst hst
  simp only at hb ⊢
  cases hbu : st.backoff_until with
  | none =>
      rw [hbu] at e7
      simp only [serialize_time, parse_time, Option.some_inj] at e7
      subst e7
      cases hb
  | some b0 =>
      have hnext : st.next_run_at = b0 := hi b0 hbu
      rw [hbu] at e7
      rw [hnext] at e1
      rw [e1] at e7
      cases e7
      injection hb

/-- C8: in every state reachable through the scheduler's operations —
attempts of any outcome, explicit short-cycle or weekly reschedules,
and start-up load of the scheduler's own persisted state — a non-absent
`backoff_until` equals `next_run_at`. -/
theorem backoff_links_next_run_spec (st : ProviderScheduleState)
    (h : ReachableState st) : ∀ b, st.backoff_until = some b → st.next_run_at = b := by
  induction h with
  | initial cfg now => intro b hb; simp [default_state] at hb
  | attempt sched cfg now result trig _ _ => exact attempt_backoffInv sched cfg _ now result trig
  | schedule_next cfg scheduled now _ _ => exact schedule_next_backoffInv cfg _ scheduled now
  | schedule_next_new cfg scheduled now => exact schedule_next_backoffInv cfg _ scheduled now
  | schedule_weekly cfg scheduled _ _ => exact schedule_weekly_backoffInv cfg _ scheduled
  | schedule_weekly_new cfg scheduled => exact schedule_weekly_backoffInv cfg _ scheduled
  | @restart_load cfg now stPrev hst ih =>
      unfold startup_state
      cases hp : parseRecord (serializeRecord stPrev) with
      | none => intro b hb; simp [default_state] at hb
      | some st' =>
          intro b hb
          exact start_adjust_backoffInv cfg now st'
            (parseRecord_serialized_backoffInv ih hp) b hb

theorem backoff_links_next_run_spec_witness :
    (attempt_wakeup backoffSched rollingCfg (default_state rollingCfg scenarioSuccess)
        scenarioSuccess transientFail true).1.next_run_at =
      addSeconds scenarioSuccess 1 :=
  backoff_links_next_run_spec _
    (ReachableState.attempt backoffSched rollingCfg scenarioSuccess transientFail true
      (ReachableState.initial rollingCfg scenarioSuccess))
    (addSeconds scenarioSuccess 1) (by decide)

end Pobudka
